import Mathlib

/-!
Shallow embedding of the `may-clack` prompt library (src/src/prompt/*.rs).

The terminal side effects (crossterm writes, raw-mode switches, cursor
visibility, the caller-supplied cancel callback) are recorded as an abstract
trace of `TermOp`s; one `TermOp.write` stands for the batch of prints a
drawing helper emits.  Keyboard input (`crossterm::event::read()`) is
modelled as a finite list of `ReadEv`s; an empty remainder means the real
loop would still be blocking, which the run functions report as `pending`.
-/

namespace MayClack

/-- `crossterm::event::KeyCode`, restricted to the constructors the prompt
match arms inspect; every other key is `esc` (falls into the `_` arm). -/
inductive KeyCode where
  | up | down | left | right
  | pageUp | pageDown
  | enter
  | char (c : Char)
  | esc
  deriving DecidableEq, Repr

/-- A key event: key code plus whether the CONTROL modifier is set
(`crossterm::event::KeyModifiers::CONTROL`). -/
structure KeyEvent where
  code : KeyCode
  ctrl : Bool
  deriving DecidableEq, Repr

/-- `crossterm::event::Event`: a key event or some other terminal event. -/
inductive Event where
  | key (k : KeyEvent)
  | other
  deriving DecidableEq, Repr

/-- One outcome of `event::read()`: an event, or an I/O error
(which the prompt loops propagate with `?`). -/
inductive ReadEv where
  | ev (e : Event)
  | ioErr
  deriving DecidableEq, Repr

/-- The abstract trace of terminal side effects performed by `interact()`. -/
inductive TermOp where
  | write
  | enableRaw
  | disableRaw
  | hideCursor
  | showCursor
  | cancelCb
  deriving DecidableEq, Repr

/-- `ClackError` variants that the select/multi-select/confirm prompts
construct (`IoError` via the `?` on crossterm calls, `Cancelled`,
`NoOptions`). -/
inductive ClackError where
  | ioError
  | cancelled
  | noOptions
  deriving DecidableEq, Repr

/-- Outcome of running `interact()` against a finite input list:
`ok` / `err` mirror `Result`, `panicked` marks a Rust `panic!` /
`expect` / `unreachable!` firing, `pending` means the input list was
exhausted while the read loop was still blocking. -/
inductive RunResult (T : Type) where
  | ok (v : T)
  | err (e : ClackError)
  | panicked
  | pending
  deriving DecidableEq, Repr

/-- Whether the terminal is left in raw mode by a trace: the last
`enableRaw`/`disableRaw` wins; initially not raw. -/
def rawAtEnd (ops : List TermOp) : Bool :=
  ops.foldl
    (fun b op =>
      match op with
      | .enableRaw => true
      | .disableRaw => false
      | _ => b)
    false

/-- Whether the cursor is left hidden by a trace: the last
`hideCursor`/`showCursor` wins; initially visible. -/
def hiddenAtEnd (ops : List TermOp) : Bool :=
  ops.foldl
    (fun b op =>
      match op with
      | .hideCursor => true
      | .showCursor => false
      | _ => b)
    false

/-! ## Windowed ("less") navigation

The four navigation branches of the read loops in `Select::interact`
(select.rs lines 390-480) and `MultiSelect::interact` (multi_select.rs
lines 410-500) are textually identical; they are embedded once here.
`max` is `self.options.len()`, `less` the window size, `idx` the focus
index and `less_idx` the row of the focus inside the window. -/

/-- Focus state of the windowed read loop: `(idx, less_idx)`. -/
structure LessState where
  idx : Nat
  less_idx : Nat
  deriving DecidableEq, Repr

/-- `KeyCode::Up | KeyCode::Left` branch under `Some(less)`.
`less_idx.saturating_sub(1)` is Nat subtraction. -/
def lessUp (max less : Nat) (s : LessState) : LessState :=
  if 0 < s.idx then
    ⟨s.idx - 1, s.less_idx - 1⟩
  else
    ⟨max - 1, less - 1⟩

/-- `KeyCode::Down | KeyCode::Right` branch under `Some(less)`. -/
def lessDown (max less : Nat) (s : LessState) : LessState :=
  if s.idx < max - 1 then
    ⟨s.idx + 1, if s.less_idx < less - 1 then s.less_idx + 1 else s.less_idx⟩
  else
    ⟨0, 0⟩

/-- `KeyCode::PageDown` branch under `Some(less)`:
`if idx + less >= max - 1` pin to the end, else jump by `less` and pull
`less_idx` forward when the window would overrun the end. -/
def lessPageDown (max less : Nat) (s : LessState) : LessState :=
  if max - 1 ≤ s.idx + less then
    ⟨max - 1, less - 1⟩
  else
    let idx := s.idx + less
    if max - idx < less - s.less_idx then
      ⟨idx, less - (max - idx)⟩
    else
      ⟨idx, s.less_idx⟩

/-- `KeyCode::PageUp` branch under `Some(less)`:
`if idx <= less` go to the top, else jump back by `less` with
`less_idx = prev_less.min(idx)`. -/
def lessPageUp (_max less : Nat) (s : LessState) : LessState :=
  if s.idx ≤ less then
    ⟨0, 0⟩
  else
    ⟨s.idx - less, min s.less_idx (s.idx - less)⟩

/-- Non-windowed `Up | Left` branch: `idx - 1`, wrapping to `max - 1`. -/
def plainUp (max idx : Nat) : Nat :=
  if 0 < idx then idx - 1 else max - 1

/-- Non-windowed `Down | Right` branch: `idx + 1`, wrapping to `0`. -/
def plainDown (max idx : Nat) : Nat :=
  if idx < max - 1 then idx + 1 else 0

/-- One navigation key applied to the windowed state; non-navigation keys
leave the state unchanged (they terminate the loop or do nothing). -/
def lessNavKey (max less : Nat) (s : LessState) (k : KeyCode) : LessState :=
  match k with
  | .up => lessUp max less s
  | .left => lessUp max less s
  | .down => lessDown max less s
  | .right => lessDown max less s
  | .pageDown => lessPageDown max less s
  | .pageUp => lessPageUp max less s
  | _ => s

/-! ## Window repaint (`draw_less`)

`Select::draw_less` / `MultiSelect::draw_less` repaint the rows
`idx + i - less_idx` for `i in 0..less`, then print a progress line
`({idx+1:#0amt$}/{max})` where `amt` is the digit count of `max`. -/

/-- The option indices repainted by one `draw_less` frame, in order. -/
def windowIndices (less idx less_idx : Nat) : List Nat :=
  (List.range less).map (fun i => idx + i - less_idx)

/-- Zero-pad a string on the left to width `n`
(the `{:#0amt$}` format of the progress line). -/
def padZero (n : Nat) (s : String) : String :=
  String.mk (List.replicate (n - s.length) '0') ++ s

/-- The `current/total` part of the progress line printed by `draw_less`. -/
def progressString (idx max : Nat) : String :=
  padZero (toString max).length (toString (idx + 1)) ++ "/" ++ toString max

/-! ## Select (select.rs) -/

namespace Sel

/-- `select::Opt<T, O>`: value, label, optional hint. -/
structure Opt (T O : Type) where
  value : T
  label : O
  hint : Option String
  deriving DecidableEq, Repr

end Sel

/-- `Select<M, T, O>` configuration.  The `cancel` field of the source is a
boxed side-effecting closure; only whether one is configured is observable
in the trace, so it is embedded as a `Bool`. -/
structure Select (M T O : Type) where
  message : M
  less : Bool
  less_amt : Option Nat
  less_max : Option Nat
  cancel : Bool
  options : List (Sel.Opt T O)

/-- `Select::mk_less` (select.rs lines 334-352).  `termSize` stands for
`crossterm::terminal::size()` (`none` = `Err`); `rows.saturating_sub(4)`
is Nat subtraction. -/
def Select.mk_less (c : Select M T O) (termSize : Option (Nat × Nat)) : Option Nat :=
  if !c.less then
    none
  else
    match c.less_amt with
    | some less => if less < c.options.length then some less else none
    | none =>
      match termSize with
      | some (_, rows) =>
        let rows := rows - 4
        let rows :=
          match c.less_max with
          | some m => min rows m
          | none => rows
        if 0 < rows ∧ rows < c.options.length then some rows else none
      | none => none

/-- Result of dispatching one key event in a read loop: continue with a
new loop state, or stop with a result; `ops` is the trace the branch
emits. -/
inductive Step (σ τ : Type) where
  | cont (s : σ) (ops : List TermOp)
  | stop (r : RunResult τ) (ops : List TermOp)
  deriving Repr

/-- One key event of the `Select::interact` read loop (select.rs lines
389-513).  The Rust match arms, in source order: Up/Left, Down/Right,
PageDown, PageUp, Enter (the in-bound `expect` at line 494 panics on a
miss), ctrl-c, wildcard.  One `TermOp.write` stands for a drawing call
(`draw_less`, each of `draw_unfocus`/`draw_focus`, or a `w_out`/`w_cancel`
variant). -/
def Select.step (c : Select M T O) (is_less : Option Nat) (max : Nat)
    (s : LessState) (k : KeyEvent) : Step LessState T :=
  match k.code, k.ctrl with
  | .up, _ | .left, _ =>
    match is_less with
    | some less => .cont (lessUp max less s) [.write]
    | none => .cont ⟨plainUp max s.idx, s.less_idx⟩ [.write, .write]
  | .down, _ | .right, _ =>
    match is_less with
    | some less => .cont (lessDown max less s) [.write]
    | none => .cont ⟨plainDown max s.idx, s.less_idx⟩ [.write, .write]
  | .pageDown, _ =>
    match is_less with
    | some less => .cont (lessPageDown max less s) [.write]
    | none => .cont s []
  | .pageUp, _ =>
    match is_less with
    | some less => .cont (lessPageUp max less s) [.write]
    | none => .cont s []
  | .enter, _ =>
    match c.options.get? s.idx with
    | some opt => .stop (.ok opt.value) [.disableRaw, .write]
    | none => .stop .panicked [.disableRaw, .write]
  | .char 'c', true =>
    .stop (.err .cancelled)
      ([.disableRaw, .write] ++ (if c.cancel then [.cancelCb] else []))
  | _, _ => .cont s []

/-- The read loop of `Select::interact` (select.rs lines 387-515), run
against a finite input list.  Returns the outcome and the trace of
terminal operations performed inside the loop. -/
def Select.runLoop (c : Select M T O) (is_less : Option Nat) (max : Nat) :
    LessState → List ReadEv → RunResult T × List TermOp
  | _, [] => (.pending, [])
  | _, .ioErr :: _ => (.err .ioError, [])
  | s, .ev .other :: rest => c.runLoop is_less max s rest
  | s, .ev (.key k) :: rest =>
    match c.step is_less max s k with
    | .cont s' ops =>
      let (r, tl) := c.runLoop is_less max s' rest
      (r, ops ++ tl)
    | .stop r ops => (r, ops)

/-- `Select::interact` (select.rs lines 368-516): fail fast on zero
options, paint the initial frame, enable raw mode, then run the read
loop. -/
def Select.interact (c : Select M T O) (termSize : Option (Nat × Nat))
    (events : List ReadEv) : RunResult T × List TermOp :=
  if c.options.isEmpty then
    (.err .noOptions, [])
  else
    let is_less := c.mk_less termSize
    let (r, ops) := c.runLoop is_less c.options.length ⟨0, 0⟩ events
    (r, .write :: .enableRaw :: ops)

/-! ## MultiSelect (multi_select.rs) -/

namespace MSel

/-- `multi_select::Opt<T, O>`: value, label, optional hint, `active`
checkbox flag (`false` at construction). -/
structure Opt (T O : Type) where
  value : T
  label : O
  hint : Option String
  active : Bool
  deriving DecidableEq, Repr

/-- `Opt::toggle` (multi_select.rs lines 72-74): flip `active`. -/
def Opt.toggle (o : Opt T O) : Opt T O :=
  { o with active := !o.active }

end MSel

/-- `MultiSelect<M, T, O>` configuration; `cancel` as in `Select`. -/
structure MultiSelect (M T O : Type) where
  message : M
  less : Bool
  less_amt : Option Nat
  less_max : Option Nat
  cancel : Bool
  options : List (MSel.Opt T O)

/-- `MultiSelect::mk_less` (multi_select.rs lines 352-370), identical to
`Select::mk_less`. -/
def MultiSelect.mk_less (c : MultiSelect M T O) (termSize : Option (Nat × Nat)) : Option Nat :=
  if !c.less then
    none
  else
    match c.less_amt with
    | some less => if less < c.options.length then some less else none
    | none =>
      match termSize with
      | some (_, rows) =>
        let rows := rows - 4
        let rows :=
          match c.less_max with
          | some m => min rows m
          | none => rows
        if 0 < rows ∧ rows < c.options.length then some rows else none
      | none => none

/-- The mutable state of the `MultiSelect::interact` read loop: the cloned
option list (whose `active` flags mutate), the focus index and the window
row. -/
structure MSState (T O : Type) where
  opts : List (MSel.Opt T O)
  idx : Nat
  less_idx : Nat
  deriving DecidableEq, Repr

/-- The selected values collected on Enter (multi_select.rs lines
518-523): values of the `active` options, in list order. -/
def submitValues (opts : List (MSel.Opt T O)) : List T :=
  (opts.filter (fun opt => opt.active)).map (fun opt => opt.value)

/-- The focus components of a `MSState` as a `LessState`. -/
def MSState.nav (s : MSState T O) : LessState :=
  ⟨s.idx, s.less_idx⟩

/-- Replace the focus components of a `MSState`. -/
def MSState.withNav (s : MSState T O) (t : LessState) : MSState T O :=
  ⟨s.opts, t.idx, t.less_idx⟩

/-- One key event of the `MultiSelect::interact` read loop
(multi_select.rs lines 409-543).  Match arms in source order: Up/Left,
Down/Right, PageDown, PageUp, space (toggle the focused option in place;
the `expect` at line 502 panics on a miss), Enter, ctrl-c — which in this
source invokes the cancel callback and then ends in `panic!()`
(line 540) — and the wildcard. -/
def MultiSelect.step (c : MultiSelect M T O) (is_less : Option Nat) (max : Nat)
    (s : MSState T O) (k : KeyEvent) : Step (MSState T O) (List T) :=
  match k.code, k.ctrl with
  | .up, _ | .left, _ =>
    match is_less with
    | some less => .cont (s.withNav (lessUp max less s.nav)) [.write]
    | none => .cont ⟨s.opts, plainUp max s.idx, s.less_idx⟩ [.write, .write]
  | .down, _ | .right, _ =>
    match is_less with
    | some less => .cont (s.withNav (lessDown max less s.nav)) [.write]
    | none => .cont ⟨s.opts, plainDown max s.idx, s.less_idx⟩ [.write, .write]
  | .pageDown, _ =>
    match is_less with
    | some less => .cont (s.withNav (lessPageDown max less s.nav)) [.write]
    | none => .cont s []
  | .pageUp, _ =>
    match is_less with
    | some less => .cont (s.withNav (lessPageUp max less s.nav)) [.write]
    | none => .cont s []
  | .char ' ', _ =>
    match s.opts.get? s.idx with
    | some opt => .cont ⟨s.opts.set s.idx opt.toggle, s.idx, s.less_idx⟩ [.write]
    | none => .stop .panicked []
  | .enter, _ =>
    .stop (.ok (submitValues s.opts)) [.disableRaw, .write]
  | .char 'c', true =>
    .stop .panicked
      ([.disableRaw, .write] ++ (if c.cancel then [.cancelCb] else []))
  | _, _ => .cont s []

/-- The read loop of `MultiSelect::interact` (multi_select.rs lines
407-545).  Returns the outcome, the loop state at the moment the run
stopped, and the trace. -/
def MultiSelect.runLoop (c : MultiSelect M T O) (is_less : Option Nat) (max : Nat) :
    MSState T O → List ReadEv → RunResult (List T) × MSState T O × List TermOp
  | s, [] => (.pending, s, [])
  | s, .ioErr :: _ => (.err .ioError, s, [])
  | s, .ev .other :: rest => c.runLoop is_less max s rest
  | s, .ev (.key k) :: rest =>
    match c.step is_less max s k with
    | .cont s' ops =>
      let (r, s'', tl) := c.runLoop is_less max s' rest
      (r, s'', ops ++ tl)
    | .stop r ops => (r, s, ops)

/-- `MultiSelect::interact` (multi_select.rs lines 386-546): fail fast on
zero options, clone the options, paint, enable raw mode, run the loop. -/
def MultiSelect.interact (c : MultiSelect M T O) (termSize : Option (Nat × Nat))
    (events : List ReadEv) : RunResult (List T) × List TermOp :=
  if c.options.isEmpty then
    (.err .noOptions, [])
  else
    let is_less := c.mk_less termSize
    let (r, _, ops) := c.runLoop is_less c.options.length ⟨c.options, 0, 0⟩ events
    (r, .write :: .enableRaw :: ops)

/-! ## Confirm (confirm.rs) -/

/-- `Confirm<M>` configuration; `cancel` as in `Select`. -/
structure Confirm (M : Type) where
  message : M
  initial_value : Bool
  prompts : String × String
  cancel : Bool

/-- One key event of the `Confirm::interact` read loop (confirm.rs lines
140-174), arms in source order: any directional key flips the boolean,
`y`/`Y` and `n`/`N` (any modifiers) jump and submit, Enter submits the
current value, ctrl-c / ctrl-d cancel, wildcard ignores. -/
def Confirm.step (c : Confirm M) (val : Bool) (k : KeyEvent) : Step Bool Bool :=
  match k.code, k.ctrl with
  | .up, _ | .down, _ | .left, _ | .right, _ =>
    .cont (!val) [.write]
  | .char 'y', _ | .char 'Y', _ =>
    .stop (.ok true) [.showCursor, .disableRaw, .write]
  | .char 'n', _ | .char 'N', _ =>
    .stop (.ok false) [.showCursor, .disableRaw, .write]
  | .enter, _ =>
    .stop (.ok val) [.showCursor, .disableRaw, .write]
  | .char 'c', true | .char 'd', true =>
    .stop (.err .cancelled)
      ([.showCursor, .disableRaw, .write] ++ (if c.cancel then [.cancelCb] else []))
  | _, _ => .cont val []

/-- The read loop of `Confirm::interact` (confirm.rs lines 138-176). -/
def Confirm.runLoop (c : Confirm M) :
    Bool → List ReadEv → RunResult Bool × List TermOp
  | _, [] => (.pending, [])
  | _, .ioErr :: _ => (.err .ioError, [])
  | val, .ev .other :: rest => c.runLoop val rest
  | val, .ev (.key k) :: rest =>
    match c.step val k with
    | .cont val' ops =>
      let (r, tl) := c.runLoop val' rest
      (r, ops ++ tl)
    | .stop r ops => (r, ops)

/-- `Confirm::interact` (confirm.rs lines 130-177): paint the initial
frame, hide the cursor, enable raw mode, run the loop from
`initial_value`. -/
def Confirm.interact (c : Confirm M) (events : List ReadEv) :
    RunResult Bool × List TermOp :=
  let (r, ops) := c.runLoop c.initial_value events
  (r, .write :: .hideCursor :: .enableRaw :: ops)

/-! ## Input (input.rs)

`Input` reads whole lines through `rustyline`.  One round of
`Editor::readline[_with_initial]` is modelled as a `LineEv`: the user
either submits the buffer (`submit (some s)` replaces the pre-filled text
by `s`, `submit none` presses Enter without editing, so the line is the
pre-fill, or `""` when there is none), or the reader fails / reports
end-of-input (`cancel`, the `Err` branch of the source, which breaks with
`ClackError::Cancelled`). -/

/-- One round of the line reader, as seen by `Input::interact_once`. -/
inductive LineEv where
  | submit (edit : Option String)
  | cancel
  deriving DecidableEq, Repr

/-- `Input<M>` configuration.  `validate` is the caller's validation
closure (`some msg` = `Err(msg)`); `cancel` as in `Select`. -/
structure Input (M : Type) where
  message : M
  initial_value : Option String
  placeholder : Option String
  validate : Option (String → Option String)
  cancel : Bool

/-- `Input::do_validate` (input.rs lines 218-224). -/
def Input.do_validate (c : Input M) (input : String) : Option String :=
  match c.validate with
  | some validate => validate input
  | none => none

/-- Outcome of `Input::interact_once` on a finite event list. -/
inductive InRes (T : Type) where
  | ok (v : Option T)
  | cancelled
  | pending
  deriving DecidableEq, Repr

/-- The line a `submit` round yields: the replacement text when the user
edited the buffer, otherwise the pre-filled text (empty when none). -/
def submittedLine (prefill edit : Option String) : String :=
  match edit with
  | some s => s
  | none => prefill.getD ""

/-- `Input::interact_once` (input.rs lines 252-310).  `parse` is
`str::parse::<T>` (`none` = parse error); `prefill` is the mutable
`initial_value` local (starts as the configured initial value, cleared
after an empty required submission, set to the rejected text after a
validation or parse failure). -/
def Input.interact_once (c : Input M) (parse : String → Option T)
    (enforce_non_empty : Bool) :
    Option String → List LineEv → InRes T
  | _, [] => .pending
  | _, .cancel :: _ => .cancelled
  | prefill, .submit edit :: rest =>
    let value := submittedLine prefill edit
    if value = "" then
      if enforce_non_empty then
        c.interact_once parse enforce_non_empty none rest
      else
        .ok none
    else
      match c.do_validate value with
      | some _ => c.interact_once parse enforce_non_empty (some value) rest
      | none =>
        match parse value with
        | some v => .ok (some v)
        | none => c.interact_once parse enforce_non_empty (some value) rest

/-- `Input::required` (input.rs lines 406-426): `interact_once::<String>`
with `enforce_non_empty = true`; `Ok(None)` is `unreachable!()`. -/
def Input.required (c : Input M) (events : List LineEv) : RunResult String :=
  match c.interact_once (fun s => some s) true c.initial_value events with
  | .ok (some value) => .ok value
  | .ok none => .panicked
  | .cancelled => .err .cancelled
  | .pending => .pending

/-- `Input::parse` (input.rs lines 327-350): like `required` but through a
caller-supplied parse step. -/
def Input.parseInteract (c : Input M) (parse : String → Option T)
    (events : List LineEv) : RunResult T :=
  match c.interact_once parse true c.initial_value events with
  | .ok (some value) => .ok value
  | .ok none => .panicked
  | .cancelled => .err .cancelled
  | .pending => .pending

/-! ## Auxiliary definitions for the verification -/

/-- A plain key press (no CONTROL modifier) as a read event. -/
def keyOf (k : KeyCode) : ReadEv :=
  ReadEv.ev (Event.key ⟨k, false⟩)

/-- A ctrl-modified character key as a read event. -/
def ctrlKey (ch : Char) : ReadEv :=
  ReadEv.ev (Event.key ⟨KeyCode.char ch, true⟩)

/-- Number of times the `MultiSelect` read loop toggles the option at
position `p`: it mirrors the recursion of `MultiSelect.runLoop`, adding
one for every space key dispatched while the focus index is `p`. -/
def MultiSelect.countTogglesAt (c : MultiSelect M T O) (is_less : Option Nat)
    (max p : Nat) : MSState T O → List ReadEv → Nat
  | _, [] => 0
  | _, .ioErr :: _ => 0
  | s, .ev .other :: rest => c.countTogglesAt is_less max p s rest
  | s, .ev (.key k) :: rest =>
    match c.step is_less max s k with
    | .cont s' _ =>
      (if k.code = KeyCode.char ' ' ∧ s.idx = p then 1 else 0)
        + c.countTogglesAt is_less max p s' rest
    | .stop _ _ => 0

/-- The `active` flag of the option at position `p`, if in bounds. -/
def activeAt (opts : List (MSel.Opt T O)) (p : Nat) : Option Bool :=
  (opts.get? p).map (fun o => o.active)

/-- The invariant of the windowed read loop state (claim C10): the window
row never exceeds the focus index or the window size, the focus index is
in bounds, and the window `[idx - less_idx, idx - less_idx + less)` fits
inside the option list. -/
def LessInv (len less : Nat) (s : LessState) : Prop :=
  s.less_idx ≤ s.idx ∧ s.less_idx < less ∧ s.idx < len ∧
    s.idx - s.less_idx + less ≤ len

instance (len less : Nat) (s : LessState) : Decidable (LessInv len less s) := by
  unfold LessInv; infer_instance

/-- The windowed focus state reached from the initial `(0, 0)` by a key
sequence. -/
def navFold (len less : Nat) (ks : List KeyCode) : LessState :=
  ks.foldl (lessNavKey len less) ⟨0, 0⟩

/-! ### Concrete configurations used in end-to-end checks -/

/-- `select("pick").option("a","Alpha").option("b","Beta")`. -/
def exampleSelectAB : Select String String String :=
  ⟨"pick", false, none, none, false, [⟨"a", "Alpha", none⟩, ⟨"b", "Beta", none⟩]⟩

/-- A select over five options with `less_amt(3)`. -/
def exampleSelectFive : Select String String String :=
  ⟨"message", true, some 3, none, false,
    [⟨"v0", "l0", none⟩, ⟨"v1", "l1", none⟩, ⟨"v2", "l2", none⟩,
     ⟨"v3", "l3", none⟩, ⟨"v4", "l4", none⟩]⟩

/-- A one-option select, no cancel callback. -/
def exampleSelectOne : Select String String String :=
  ⟨"message", false, none, none, false, [⟨"a", "A", none⟩]⟩

/-- A one-option select with a cancel callback configured. -/
def exampleSelectCancel : Select String String String :=
  ⟨"message", false, none, none, true, [⟨"a", "A", none⟩]⟩

/-- `select("x")` with zero options. -/
def exampleSelectEmpty : Select String String String :=
  ⟨"x", false, none, none, false, []⟩

/-- `multi_select("pick").option("a","A").option("b","B")`. -/
def exampleMultiAB : MultiSelect String String String :=
  ⟨"pick", false, none, none, false,
    [⟨"a", "A", none, false⟩, ⟨"b", "B", none, false⟩]⟩

/-- A one-option multi-select with a cancel callback configured. -/
def exampleMultiCancel : MultiSelect String String String :=
  ⟨"message", false, none, none, true, [⟨"a", "A", none, false⟩]⟩

/-- A multi-select with zero options. -/
def exampleMultiEmpty : MultiSelect String String String :=
  ⟨"x", false, none, none, false, []⟩

/-- A required input with a pre-filled initial value whose validator
rejects every line. -/
def exampleInputReject : Input String :=
  ⟨"message", some "x", none, some (fun _ => some "invalid"), false⟩

/-- A required input with no initial value and no validator. -/
def exampleInputPlain : Input String :=
  ⟨"message", none, none, none, false⟩

/-- A required input with initial value `"x"` and no validator. -/
def exampleInputDefault : Input String :=
  ⟨"message", some "x", none, none, false⟩

/-- A confirm prompt with defaults and no cancel callback. -/
def exampleConfirm : Confirm String :=
  ⟨"message", false, ("yes", "no"), false⟩

/-! # Theorems -/

/-! ## Navigation wrap-around (C5, C6) -/

theorem plainDown_eq_mod (len j : Nat) (h : j < len) :
    plainDown len j = (j + 1) % len := by
  unfold plainDown
  rcases Nat.lt_or_ge j (len - 1) with hj | hj
  · rw [if_pos hj, Nat.mod_eq_of_lt (by omega)]
  · rw [if_neg (by omega)]
    have hlen : j + 1 = len := by omega
    rw [hlen, Nat.mod_self]

theorem iterate_plainDown (len : Nat) :
    ∀ (N i : Nat), i < len → (plainDown len)^[N] i = (i + N) % len := by
  intro N
  induction N with
  | zero => intro i h; simp [Nat.mod_eq_of_lt h]
  | succ n ih =>
    intro i h
    rw [Function.iterate_succ_apply', ih i h,
      plainDown_eq_mod len _ (Nat.mod_lt _ (by omega)), Nat.mod_add_mod]
    congr 1

theorem lessDown_idx (max less : Nat) (s : LessState) :
    (lessDown max less s).idx = plainDown max s.idx := by
  by_cases h : s.idx < max - 1 <;> simp [lessDown, plainDown, h]

theorem iterate_lessDown_idx (max less : Nat) :
    ∀ (N : Nat) (s : LessState),
      ((lessDown max less)^[N] s).idx = (plainDown max)^[N] s.idx := by
  intro N
  induction N with
  | zero => intro s; rfl
  | succ n ih =>
    intro s
    rw [Function.iterate_succ_apply, Function.iterate_succ_apply, ih, lessDown_idx]

/-- C5: for every list length `len ≥ 1`, applying `N` Down/Next steps
from focus index `i < len` leaves the focus at `(i + N) mod len`, both in
the non-windowed loop (`plainDown`, the `Down | Right` arm without
paging) and in the windowed loop (`lessDown`, the same arm under
`Some(less)`), whose focus component is independent of the window row. -/
theorem claim_c5 (len less N i : Nat) (s : LessState) (hlen : 1 ≤ len)
    (hi : i < len) (hs : s.idx = i) :
    (plainDown len)^[N] i = (i + N) % len
    ∧ ((lessDown len less)^[N] s).idx = (i + N) % len := by
  refine ⟨iterate_plainDown len N i hi, ?_⟩
  rw [iterate_lessDown_idx, hs]
  exact iterate_plainDown len N i hi

theorem claim_c5_witness :
    (plainDown 5)^[7] 3 = (3 + 7) % 5
    ∧ ((lessDown 5 3)^[7] (⟨3, 1⟩ : LessState)).idx = (3 + 7) % 5 :=
  claim_c5 5 3 7 3 ⟨3, 1⟩ (by decide) (by decide) rfl

/-- C6: with `window_size = 3` over 5 options, from focus 0 and window
row 0, one PageDown lands on focus index 3 with window row 1, the
repainted window is the slice `[2, 3, 4]`, the progress line reads
`4/5`, and submitting right after the PageDown returns the value at
index 3. -/
theorem claim_c6 :
    lessPageDown 5 3 ⟨0, 0⟩ = ⟨3, 1⟩
    ∧ windowIndices 3 3 1 = [2, 3, 4]
    ∧ progressString 3 5 = "4/5"
    ∧ (exampleSelectFive.interact none [keyOf KeyCode.pageDown, keyOf KeyCode.enter]).1
        = RunResult.ok "v3" := by
  refine ⟨rfl, by decide, by decide, by decide⟩

/-! ## Submission results (C9, C4) -/

/-- C9: whenever the Select read loop receives Enter with the focus at an
in-bounds index, it returns `Ok` of the focused option's `value` (never
its label); and the end-to-end run of
`select("pick").option("a","Alpha").option("b","Beta")` with input
`[Down, Enter]` yields `Ok("b")`. -/
theorem claim_c9 {M T O : Type} (c : Select M T O) (is_less : Option Nat)
    (max : Nat) (s : LessState) (m : Bool) (rest : List ReadEv)
    (h : s.idx < c.options.length) :
    (c.runLoop is_less max s (ReadEv.ev (Event.key ⟨KeyCode.enter, m⟩) :: rest)).1
      = RunResult.ok (c.options.get ⟨s.idx, h⟩).value
    ∧ (exampleSelectAB.interact none [keyOf KeyCode.down, keyOf KeyCode.enter]).1
        = RunResult.ok "b" := by
  constructor
  · simp [Select.runLoop, Select.step, List.get?_eq_get h, List.getElem?_eq_getElem h]
  · decide

theorem claim_c9_witness :
    (exampleSelectAB.runLoop none 2 ⟨1, 0⟩
      [ReadEv.ev (Event.key ⟨KeyCode.enter, false⟩)]).1 = RunResult.ok "b" :=
  (claim_c9 exampleSelectAB none 2 ⟨1, 0⟩ false [] (by decide)).1

/-- C4: whenever the MultiSelect read loop receives Enter, it returns the
values of exactly the options whose `active` flag is set, in original
list order (`submitValues` filters the list in place); end-to-end,
`multi_select("pick").option("a","A").option("b","B")` with input
`[Space, Down, Space, Enter]` yields `Ok(["a","b"])`, and toggling in the
reverse order (`[Down, Space, Up, Space, Enter]`) still yields
`Ok(["a","b"])` — list order, not toggle order. -/
theorem claim_c4 {M T O : Type} (c : MultiSelect M T O) (is_less : Option Nat)
    (max : Nat) (s : MSState T O) (m : Bool) (rest : List ReadEv) :
    (c.runLoop is_less max s (ReadEv.ev (Event.key ⟨KeyCode.enter, m⟩) :: rest)).1
      = RunResult.ok (submitValues s.opts)
    ∧ (exampleMultiAB.interact none
        [keyOf (KeyCode.char ' '), keyOf KeyCode.down, keyOf (KeyCode.char ' '),
          keyOf KeyCode.enter]).1 = RunResult.ok ["a", "b"]
    ∧ (exampleMultiAB.interact none
        [keyOf KeyCode.down, keyOf (KeyCode.char ' '), keyOf KeyCode.up,
          keyOf (KeyCode.char ' '), keyOf KeyCode.enter]).1 = RunResult.ok ["a", "b"] := by
  refine ⟨?_, by decide, by decide⟩
  simp [MultiSelect.runLoop, MultiSelect.step]

/-! ## Zero options (C8) -/

/-- C8: a `Select` or `MultiSelect` with zero configured options returns
the `NoOptions` error immediately with an empty terminal trace: nothing
is painted and raw mode is never entered, for any terminal size and any
input. -/
theorem claim_c8 {M T O : Type} (cs : Select M T O) (cm : MultiSelect M T O)
    (ts1 ts2 : Option (Nat × Nat)) (evs1 evs2 : List ReadEv)
    (h1 : cs.options = []) (h2 : cm.options = []) :
    cs.interact ts1 evs1 = (RunResult.err ClackError.noOptions, [])
    ∧ cm.interact ts2 evs2 = (RunResult.err ClackError.noOptions, []) := by
  constructor
  · simp [Select.interact, h1]
  · simp [MultiSelect.interact, h2]

theorem claim_c8_witness :
    exampleSelectEmpty.interact none [] = (RunResult.err ClackError.noOptions, [])
    ∧ exampleMultiEmpty.interact none [] = (RunResult.err ClackError.noOptions, []) :=
  claim_c8 exampleSelectEmpty exampleMultiEmpty none none [] [] rfl rfl

/-! ## Cancellation (C1) and raw-mode pairing (C2) -/

/-- C1 (code bug): on ctrl-c, `MultiSelect::interact` repaints, disables
raw mode, invokes the configured cancel callback — and then hits the
`panic!()` at multi_select.rs line 540 instead of returning
`Err(Cancelled)`; `Select::interact` on the same input does return
`Err(Cancelled)`. -/
theorem claim_c1_bug :
    (exampleMultiCancel.interact none [ctrlKey 'c']).1 = RunResult.panicked
    ∧ (exampleMultiCancel.interact none [ctrlKey 'c']).2
        = [TermOp.write, TermOp.enableRaw, TermOp.disableRaw, TermOp.write,
            TermOp.cancelCb]
    ∧ (exampleSelectCancel.interact none [ctrlKey 'c']).1
        = RunResult.err ClackError.cancelled := by
  refine ⟨rfl, rfl, rfl⟩

/-- C2 (counterexample): when `event::read()` fails, `Select::interact`
propagates `IoError` through `?` and returns while the terminal is still
in raw mode — so raw mode is not restored on every exit path. -/
theorem claim_c2_counterexample :
    (exampleSelectOne.interact none [ReadEv.ioErr]).1 = RunResult.err ClackError.ioError
    ∧ rawAtEnd (exampleSelectOne.interact none [ReadEv.ioErr]).2 = true :=
  ⟨rfl, rfl⟩

theorem rawAtEnd_append_foldl (l t : List TermOp) :
    rawAtEnd (l ++ t)
      = t.foldl
          (fun b op =>
            match op with
            | TermOp.enableRaw => true
            | TermOp.disableRaw => false
            | _ => b)
          (rawAtEnd l) := by
  simp [rawAtEnd, List.foldl_append]

theorem hiddenAtEnd_append_foldl (l t : List TermOp) :
    hiddenAtEnd (l ++ t)
      = t.foldl
          (fun b op =>
            match op with
            | TermOp.hideCursor => true
            | TermOp.showCursor => false
            | _ => b)
          (hiddenAtEnd l) := by
  simp [hiddenAtEnd, List.foldl_append]

/-- Every `stop` branch of `Select.step` emits a trace that begins with
`disableRaw` and contains no later `enableRaw`, so it leaves raw mode
off whatever came before. -/
theorem Select.step_stop_raw {M T O : Type} (c : Select M T O)
    (is_less : Option Nat) (max : Nat) (s : LessState) (k : KeyEvent)
    (r : RunResult T) (ops : List TermOp)
    (h : c.step is_less max s k = Step.stop r ops) (l : List TermOp) :
    rawAtEnd (l ++ ops) = false := by
  unfold Select.step at h
  split at h
  all_goals try (split at h)
  all_goals try cases h
  all_goals (rcases hb : c.cancel <;> simp [hb, rawAtEnd_append_foldl])

/-- If the Select read loop ends in a submission or a cancellation, the
trace it produced leaves raw mode off, no matter what trace preceded
it. -/
theorem Select.runLoop_restores_sel {M T O : Type} (c : Select M T O)
    (is_less : Option Nat) (max : Nat) :
    ∀ (evs : List ReadEv) (s : LessState) (l : List TermOp),
      ((∃ v, (c.runLoop is_less max s evs).1 = RunResult.ok v)
        ∨ (c.runLoop is_less max s evs).1 = RunResult.err ClackError.cancelled) →
      rawAtEnd (l ++ (c.runLoop is_less max s evs).2) = false := by
  intro evs
  induction evs with
  | nil =>
    intro s l h
    rcases h with ⟨v, hv⟩ | hv <;> simp [Select.runLoop] at hv
  | cons e rest ih =>
    intro s l h
    match e with
    | ReadEv.ioErr =>
      rcases h with ⟨v, hv⟩ | hv <;> simp [Select.runLoop] at hv
    | ReadEv.ev Event.other =>
      exact ih s l h
    | ReadEv.ev (Event.key k) =>
      rcases hstep : c.step is_less max s k with ⟨s', ops⟩ | ⟨r, ops⟩
      · have hrun : c.runLoop is_less max s (ReadEv.ev (Event.key k) :: rest)
            = ((c.runLoop is_less max s' rest).1,
                ops ++ (c.runLoop is_less max s' rest).2) := by
          simp [Select.runLoop, hstep]
        rw [hrun] at h ⊢
        rw [← List.append_assoc]
        exact ih s' (l ++ ops) h
      · have hrun : c.runLoop is_less max s (ReadEv.ev (Event.key k) :: rest)
            = (r, ops) := by
          simp [Select.runLoop, hstep]
        rw [hrun]
        exact c.step_stop_raw is_less max s k r ops hstep l

/-- The only `stop` branch of `MultiSelect.step` that returns `Ok` is the
Enter branch, whose trace starts with `disableRaw`. -/
theorem MultiSelect.step_stop_ok_raw {M T O : Type} (c : MultiSelect M T O)
    (is_less : Option Nat) (max : Nat) (s : MSState T O) (k : KeyEvent)
    (v : List T) (ops : List TermOp)
    (h : c.step is_less max s k = Step.stop (RunResult.ok v) ops) (l : List TermOp) :
    rawAtEnd (l ++ ops) = false := by
  unfold MultiSelect.step at h
  split at h
  all_goals try (split at h)
  all_goals try cases h
  all_goals (rcases hb : c.cancel <;> simp [hb, rawAtEnd_append_foldl])

/-- If the MultiSelect read loop ends in a submission, the trace it
produced leaves raw mode off. -/
theorem MultiSelect.runLoop_restores_ms {M T O : Type} (c : MultiSelect M T O)
    (is_less : Option Nat) (max : Nat) :
    ∀ (evs : List ReadEv) (s : MSState T O) (l : List TermOp),
      (∃ v, (c.runLoop is_less max s evs).1 = RunResult.ok v) →
      rawAtEnd (l ++ (c.runLoop is_less max s evs).2.2) = false := by
  intro evs
  induction evs with
  | nil =>
    intro s l h
    rcases h with ⟨v, hv⟩
    simp [MultiSelect.runLoop] at hv
  | cons e rest ih =>
    intro s l h
    match e with
    | ReadEv.ioErr =>
      rcases h with ⟨v, hv⟩
      simp [MultiSelect.runLoop] at hv
    | ReadEv.ev Event.other =>
      exact ih s l h
    | ReadEv.ev (Event.key k) =>
      rcases hstep : c.step is_less max s k with ⟨s', ops⟩ | ⟨r, ops⟩
      · have hrun : c.runLoop is_less max s (ReadEv.ev (Event.key k) :: rest)
            = ((c.runLoop is_less max s' rest).1,
                (c.runLoop is_less max s' rest).2.1,
                ops ++ (c.runLoop is_less max s' rest).2.2) := by
          simp [MultiSelect.runLoop, hstep]
        rw [hrun] at h ⊢
        rw [← List.append_assoc]
        exact ih s' (l ++ ops) h
      · have hrun : c.runLoop is_less max s (ReadEv.ev (Event.key k) :: rest)
            = (r, s, ops) := by
          simp [MultiSelect.runLoop, hstep]
        rw [hrun] at h ⊢
        rcases h with ⟨v, hv⟩
        subst hv
        exact c.step_stop_ok_raw is_less max s k v ops hstep l

/-- Every `stop` branch of `Confirm.step` emits
`showCursor :: disableRaw :: …` with no later `enableRaw`/`hideCursor`,
so it leaves raw mode off and the cursor visible. -/
theorem Confirm.step_stop_restore {M : Type} (c : Confirm M) (val : Bool)
    (k : KeyEvent) (r : RunResult Bool) (ops : List TermOp)
    (h : c.step val k = Step.stop r ops) (l : List TermOp) :
    rawAtEnd (l ++ ops) = false ∧ hiddenAtEnd (l ++ ops) = false := by
  unfold Confirm.step at h
  split at h
  all_goals try (split at h)
  all_goals try cases h
  all_goals
    (rcases hb : c.cancel <;>
      simp [hb, rawAtEnd_append_foldl, hiddenAtEnd_append_foldl])

/-- If the Confirm read loop ends in a submission or a cancellation, the
trace it produced leaves raw mode off and the cursor visible. -/
theorem Confirm.runLoop_restores_confirm {M : Type} (c : Confirm M) :
    ∀ (evs : List ReadEv) (val : Bool) (l : List TermOp),
      ((∃ v, (c.runLoop val evs).1 = RunResult.ok v)
        ∨ (c.runLoop val evs).1 = RunResult.err ClackError.cancelled) →
      rawAtEnd (l ++ (c.runLoop val evs).2) = false
      ∧ hiddenAtEnd (l ++ (c.runLoop val evs).2) = false := by
  intro evs
  induction evs with
  | nil =>
    intro val l h
    rcases h with ⟨v, hv⟩ | hv <;> simp [Confirm.runLoop] at hv
  | cons e rest ih =>
    intro val l h
    match e with
    | ReadEv.ioErr =>
      rcases h with ⟨v, hv⟩ | hv <;> simp [Confirm.runLoop] at hv
    | ReadEv.ev Event.other =>
      exact ih val l h
    | ReadEv.ev (Event.key k) =>
      rcases hstep : c.step val k with ⟨val', ops⟩ | ⟨r, ops⟩
      · have hrun : c.runLoop val (ReadEv.ev (Event.key k) :: rest)
            = ((c.runLoop val' rest).1, ops ++ (c.runLoop val' rest).2) := by
          simp [Confirm.runLoop, hstep]
        rw [hrun] at h ⊢
        rw [← List.append_assoc]
        exact ih val' (l ++ ops) h
      · have hrun : c.runLoop val (ReadEv.ev (Event.key k) :: rest) = (r, ops) := by
          simp [Confirm.runLoop, hstep]
        rw [hrun]
        exact c.step_stop_restore val k r ops hstep l

/-- C2 (amended): raw mode (and, for Confirm, the hidden cursor) is
restored on the submission and cancellation exit paths of
`Select::interact`, `MultiSelect::interact` and `Confirm::interact`; the
pairing is per-branch, and the read-error path returns with raw mode
still enabled (see the counterexample). -/
theorem claim_c2_amended {M T O : Type} (cs : Select M T O)
    (cm : MultiSelect M T O) (cc : Confirm M) (ts1 ts2 : Option (Nat × Nat))
    (evs1 evs2 evs3 : List ReadEv) :
    (((∃ v, (cs.interact ts1 evs1).1 = RunResult.ok v)
        ∨ (cs.interact ts1 evs1).1 = RunResult.err ClackError.cancelled) →
      rawAtEnd (cs.interact ts1 evs1).2 = false)
    ∧ ((∃ v, (cm.interact ts2 evs2).1 = RunResult.ok v) →
        rawAtEnd (cm.interact ts2 evs2).2 = false)
    ∧ (((∃ v, (cc.interact evs3).1 = RunResult.ok v)
          ∨ (cc.interact evs3).1 = RunResult.err ClackError.cancelled) →
        rawAtEnd (cc.interact evs3).2 = false
        ∧ hiddenAtEnd (cc.interact evs3).2 = false) := by
  refine ⟨?_, ?_, ?_⟩
  · intro h
    unfold Select.interact at h ⊢
    by_cases hemp : cs.options.isEmpty
    · rcases h with ⟨v, hv⟩ | hv <;> simp [hemp] at hv
    · simp only [hemp, if_false, Bool.false_eq_true] at h ⊢
      have := cs.runLoop_restores_sel (cs.mk_less ts1) cs.options.length evs1 ⟨0, 0⟩
        [TermOp.write, TermOp.enableRaw] h
      simpa using this
  · intro h
    unfold MultiSelect.interact at h ⊢
    by_cases hemp : cm.options.isEmpty
    · rcases h with ⟨v, hv⟩
      simp [hemp] at hv
    · simp only [hemp, if_false, Bool.false_eq_true] at h ⊢
      have := cm.runLoop_restores_ms (cm.mk_less ts2) cm.options.length evs2
        ⟨cm.options, 0, 0⟩ [TermOp.write, TermOp.enableRaw] h
      simpa using this
  · intro h
    unfold Confirm.interact at h ⊢
    have := cc.runLoop_restores_confirm evs3 cc.initial_value
      [TermOp.write, TermOp.hideCursor, TermOp.enableRaw] h
    simpa using this

theorem claim_c2_amended_witness :
    rawAtEnd (exampleSelectOne.interact none [keyOf KeyCode.enter]).2 = false
    ∧ rawAtEnd (exampleMultiAB.interact none [keyOf KeyCode.enter]).2 = false
    ∧ (rawAtEnd (exampleConfirm.interact [keyOf KeyCode.enter]).2 = false
        ∧ hiddenAtEnd (exampleConfirm.interact [keyOf KeyCode.enter]).2 = false) := by
  obtain ⟨h1, h2, h3⟩ := claim_c2_amended exampleSelectOne exampleMultiAB
    exampleConfirm none none [keyOf KeyCode.enter] [keyOf KeyCode.enter]
    [keyOf KeyCode.enter]
  exact ⟨h1 (Or.inl ⟨"a", by decide⟩), h2 ⟨[], by decide⟩,
    h3 (Or.inl ⟨false, by decide⟩)⟩

/-! ## Required text input (C3) -/

/-- C3 (counterexample): a required input with a configured default
(`initial_value = "x"`) whose validator rejects every line does not
return the default on a single empty submission — it re-prompts. -/
theorem claim_c3_counterexample :
    exampleInputReject.required [LineEv.submit none] = RunResult.pending
    ∧ exampleInputReject.required [LineEv.submit none] ≠ RunResult.ok "x" :=
  ⟨rfl, by decide⟩

/-- With `enforce_non_empty`, processing any number of empty submissions
from an empty prefill leaves the loop still waiting. -/
theorem Input.interact_once_empty_pending {M T : Type} (c : Input M)
    (parse : String → Option T) :
    ∀ (evs : List LineEv),
      (∀ e ∈ evs, e = LineEv.submit none ∨ e = LineEv.submit (some "")) →
      c.interact_once parse true none evs = InRes.pending := by
  intro evs
  induction evs with
  | nil => intro _; rfl
  | cons e rest ih =>
    intro he
    have h0 := he e (List.mem_cons_self e rest)
    have hrest : ∀ e' ∈ rest, e' = LineEv.submit none ∨ e' = LineEv.submit (some "") :=
      fun e' h' => he e' (List.mem_cons_of_mem _ h')
    rcases h0 with rfl | rfl <;>
      simpa [Input.interact_once, submittedLine] using ih hrest

/-- With `enforce_non_empty`, a successful return can only come from a
non-empty line that passes the validator and the parse step. -/
theorem Input.interact_once_ok_line {M T : Type} (c : Input M)
    (parse : String → Option T) :
    ∀ (evs : List LineEv) (prefill : Option String) (v : T),
      c.interact_once parse true prefill evs = InRes.ok (some v) →
      ∃ line, line ≠ "" ∧ c.do_validate line = none ∧ parse line = some v := by
  intro evs
  induction evs with
  | nil => intro prefill v h; simp [Input.interact_once] at h
  | cons e rest ih =>
    intro prefill v h
    cases e with
    | cancel => simp [Input.interact_once] at h
    | submit edit =>
      by_cases hline : submittedLine prefill edit = ""
      · simp [Input.interact_once, hline] at h
        exact ih none v h
      · cases hval : c.do_validate (submittedLine prefill edit) with
        | some msg =>
          simp [Input.interact_once, hline, hval] at h
          exact ih _ v h
        | none =>
          cases hparse : parse (submittedLine prefill edit) with
          | some v' =>
            simp [Input.interact_once, hline, hval, hparse] at h
            exact ⟨submittedLine prefill edit, hline, hval, by rw [hparse, h]⟩
          | none =>
            simp [Input.interact_once, hline, hval, hparse] at h
            exact ih _ v h

/-- A non-empty prefilled default that passes the validator and the parse
step is returned by the first untouched Enter. -/
theorem Input.interact_once_default {M T : Type} (c : Input M)
    (parse : String → Option T) (d : String) (rest : List LineEv) (v : T)
    (hd : d ≠ "") (hval : c.do_validate d = none) (hparse : parse d = some v) :
    c.interact_once parse true (some d) (LineEv.submit none :: rest)
      = InRes.ok (some v) := by
  simp [Input.interact_once, submittedLine, hd, hval, hparse]

/-- C3 (amended): a required input (`Input::required`, or any
`interact_once` with `enforce_non_empty`) with no configured
default/initial value never returns on any sequence of empty-line
submissions, and returns `Ok` only for a non-empty line passing the
configured validator and parse step; when a non-empty default value that
passes the validator (and parse step) is configured, a single empty
submission returns it immediately. -/
theorem claim_c3_amended {M : Type} (c : Input M) :
    (∀ (T : Type) (parse : String → Option T) (evs : List LineEv),
        (∀ e ∈ evs, e = LineEv.submit none ∨ e = LineEv.submit (some "")) →
        c.interact_once parse true none evs = InRes.pending)
    ∧ (c.initial_value = none →
        ∀ (evs : List LineEv),
          (∀ e ∈ evs, e = LineEv.submit none ∨ e = LineEv.submit (some "")) →
          c.required evs = RunResult.pending)
    ∧ (∀ (T : Type) (parse : String → Option T) (prefill : Option String)
          (evs : List LineEv) (v : T),
        c.interact_once parse true prefill evs = InRes.ok (some v) →
        ∃ line, line ≠ "" ∧ c.do_validate line = none ∧ parse line = some v)
    ∧ (∀ (T : Type) (parse : String → Option T) (d : String) (rest : List LineEv)
          (v : T), d ≠ "" → c.do_validate d = none → parse d = some v →
        c.interact_once parse true (some d) (LineEv.submit none :: rest)
          = InRes.ok (some v))
    ∧ (∀ (d : String) (rest : List LineEv),
        c.initial_value = some d → d ≠ "" → c.do_validate d = none →
        c.required (LineEv.submit none :: rest) = RunResult.ok d) := by
  refine ⟨fun T parse evs he => c.interact_once_empty_pending parse evs he,
    ?_, fun T parse prefill evs v h => c.interact_once_ok_line parse evs prefill v h,
    fun T parse d rest v hd hval hparse =>
      c.interact_once_default parse d rest v hd hval hparse, ?_⟩
  · intro hinit evs he
    unfold Input.required
    rw [hinit, c.interact_once_empty_pending (fun s => some s) evs he]
  · intro d rest hinit hd hval
    unfold Input.required
    rw [hinit, c.interact_once_default (fun s => some s) d rest d hd hval rfl]

theorem claim_c3_amended_witness :
    exampleInputPlain.required [LineEv.submit none, LineEv.submit (some "")]
      = RunResult.pending
    ∧ exampleInputDefault.required [LineEv.submit none] = RunResult.ok "x" := by
  refine ⟨(claim_c3_amended exampleInputPlain).2.1 rfl _ ?_,
    (claim_c3_amended exampleInputDefault).2.2.2.2 "x" [] rfl (by decide) rfl⟩
  decide

/-! ## Windowed loop invariant (C10) -/

theorem lessUp_inv (len less : Nat) (h1 : 1 ≤ less) (h2 : less < len)
    (s : LessState) (hs : LessInv len less s) :
    LessInv len less (lessUp len less s) := by
  obtain ⟨ha, hb, hc, hd⟩ := hs
  unfold lessUp LessInv
  split <;> (try dsimp only) <;> omega

theorem lessDown_inv (len less : Nat) (h1 : 1 ≤ less) (h2 : less < len)
    (s : LessState) (hs : LessInv len less s) :
    LessInv len less (lessDown len less s) := by
  obtain ⟨ha, hb, hc, hd⟩ := hs
  unfold lessDown LessInv
  split <;> (try dsimp only)
  · split <;> (try dsimp only) <;> omega
  · omega

theorem lessPageDown_inv (len less : Nat) (h1 : 1 ≤ less) (h2 : less < len)
    (s : LessState) (hs : LessInv len less s) :
    LessInv len less (lessPageDown len less s) := by
  obtain ⟨ha, hb, hc, hd⟩ := hs
  unfold lessPageDown LessInv
  split <;> (try dsimp only)
  · omega
  · split <;> (try dsimp only) <;> omega

theorem lessPageUp_inv (len less : Nat) (h1 : 1 ≤ less) (h2 : less < len)
    (s : LessState) (hs : LessInv len less s) :
    LessInv len less (lessPageUp len less s) := by
  obtain ⟨ha, hb, hc, hd⟩ := hs
  unfold lessPageUp LessInv
  split <;> (try dsimp only) <;> omega

theorem lessNavKey_inv (len less : Nat) (h1 : 1 ≤ less) (h2 : less < len)
    (s : LessState) (k : KeyCode) (hs : LessInv len less s) :
    LessInv len less (lessNavKey len less s k) := by
  cases k with
  | up => exact lessUp_inv len less h1 h2 s hs
  | left => exact lessUp_inv len less h1 h2 s hs
  | down => exact lessDown_inv len less h1 h2 s hs
  | right => exact lessDown_inv len less h1 h2 s hs
  | pageDown => exact lessPageDown_inv len less h1 h2 s hs
  | pageUp => exact lessPageUp_inv len less h1 h2 s hs
  | enter => exact hs
  | char ch => exact hs
  | esc => exact hs

theorem foldl_lessNavKey_inv (len less : Nat) (h1 : 1 ≤ less) (h2 : less < len) :
    ∀ (ks : List KeyCode) (s : LessState), LessInv len less s →
      LessInv len less (ks.foldl (lessNavKey len less) s) := by
  intro ks
  induction ks with
  | nil => intro s hs; exact hs
  | cons k ks ih =>
    intro s hs
    exact ih _ (lessNavKey_inv len less h1 h2 s k hs)

theorem Select.mk_less_lt {M T O : Type} (c : Select M T O)
    (ts : Option (Nat × Nat)) (l : Nat) (h : c.mk_less ts = some l) :
    l < c.options.length := by
  rcases hc : c.less with _ | _
  · unfold Select.mk_less at h
    rw [hc] at h
    simp at h
  · rcases hamt : c.less_amt with _ | a
    · rcases ts with _ | ⟨cols, rows⟩
      · unfold Select.mk_less at h
        rw [hc, hamt] at h
        simp at h
      · unfold Select.mk_less at h
        rw [hc, hamt] at h
        simp only [Bool.not_true, Bool.false_eq_true, if_false] at h
        (try dsimp only at h)
        split at h
        · rename_i hcond
          cases h
          exact hcond.2
        · cases h
    · unfold Select.mk_less at h
      rw [hc, hamt] at h
      simp only [Bool.not_true, Bool.false_eq_true, if_false] at h
      split at h
      · rename_i hcond
        cases h
        exact hcond
      · cases h

/-- C10: from `(idx, less_idx) = (0, 0)`, every state reachable through
the windowed navigation branches (with `1 ≤ window_size < len`, as
enforced by the builder asserts and the `mk_less` activation check)
satisfies `less_idx ≤ idx`, `less_idx < window_size`, `idx < len` and
`idx - less_idx + window_size ≤ len`; hence every repaint index
`idx + i - less_idx` computed by `draw_less` stays below `len` with no
`usize` underflow, so the in-loop `expect`/`unwrap` lookups cannot
panic; and `mk_less` only ever activates a window strictly smaller than
the option count. -/
theorem claim_c10 {M T O : Type} (len less : Nat) (h1 : 1 ≤ less)
    (h2 : less < len) (ks : List KeyCode) :
    LessInv len less (navFold len less ks)
    ∧ (∀ i, i < less →
        (navFold len less ks).less_idx ≤ (navFold len less ks).idx + i
        ∧ (navFold len less ks).idx + i - (navFold len less ks).less_idx < len)
    ∧ (∀ j ∈ windowIndices less (navFold len less ks).idx
          (navFold len less ks).less_idx, j < len)
    ∧ (∀ (c : Select M T O) (ts : Option (Nat × Nat)) (l : Nat),
        c.mk_less ts = some l → l < c.options.length) := by
  have hinv0 : LessInv len less ⟨0, 0⟩ := by
    unfold LessInv
    dsimp only
    omega
  have hinv : LessInv len less (navFold len less ks) :=
    foldl_lessNavKey_inv len less h1 h2 ks ⟨0, 0⟩ hinv0
  obtain ⟨ha, hb, hc, hd⟩ := hinv
  refine ⟨⟨ha, hb, hc, hd⟩, fun i hi => ⟨by omega, by omega⟩, ?_, ?_⟩
  · intro j hj
    unfold windowIndices at hj
    obtain ⟨i, hi, rfl⟩ := List.mem_map.1 hj
    have hi' := List.mem_range.1 hi
    omega
  · intro c ts l h
    exact c.mk_less_lt ts l h

theorem claim_c10_witness :
    LessInv 5 3 (navFold 5 3 [KeyCode.pageDown])
    ∧ (∀ j ∈ windowIndices 3 (navFold 5 3 [KeyCode.pageDown]).idx
          (navFold 5 3 [KeyCode.pageDown]).less_idx, j < 5) := by
  have h := claim_c10 (M := Unit) (T := Unit) (O := Unit) 5 3
    (by decide) (by decide) [KeyCode.pageDown]
  exact ⟨h.1, h.2.2.1⟩

/-! ## Toggle idempotence and parity (C7) -/

theorem decide_succ_mod_two (n : Nat) :
    decide ((1 + n) % 2 = 1) = !decide (n % 2 = 1) := by
  by_cases hn : n % 2 = 1
  · have h1 : (1 + n) % 2 = 0 := by omega
    simp [hn, h1]
  · have h1 : (1 + n) % 2 = 1 := by omega
    simp [hn, h1]

/-- A `cont` step of the MultiSelect loop either toggles the focused
option in place (space) or leaves the option list untouched. -/
theorem MultiSelect.step_cont_opts {M T O : Type} (c : MultiSelect M T O)
    (is_less : Option Nat) (max : Nat) (s s' : MSState T O) (k : KeyEvent)
    (ops : List TermOp) (h : c.step is_less max s k = Step.cont s' ops) :
    (k.code = KeyCode.char ' ' →
      ∃ opt, s.opts.get? s.idx = some opt
        ∧ s' = ⟨s.opts.set s.idx opt.toggle, s.idx, s.less_idx⟩)
    ∧ (k.code ≠ KeyCode.char ' ' → s'.opts = s.opts) := by
  unfold MultiSelect.step at h
  split at h
  all_goals try (split at h)
  all_goals try cases h
  all_goals
    refine ⟨fun hsp => ?_, fun hns => ?_⟩ <;>
      first
        | rfl
        | simp_all
        | (rename_i hget; exact ⟨_, hget, rfl⟩)

theorem map_xor_parity_zero {T O : Type} (o? : Option (MSel.Opt T O)) :
    Option.map (fun o => { o with active := xor o.active false }) o? = o? := by
  cases o? with
  | none => rfl
  | some o => simp

/-- The loop state returned by `runLoop` holds, at every position `p`,
the initial option with its `active` flag xor-ed by the parity of the
number of space-toggles performed at `p`. -/
theorem MultiSelect.runLoop_get_parity {M T O : Type} (c : MultiSelect M T O)
    (is_less : Option Nat) (max p : Nat) :
    ∀ (evs : List ReadEv) (s : MSState T O),
      (c.runLoop is_less max s evs).2.1.opts.get? p
        = (s.opts.get? p).map
            (fun o =>
              { o with
                active := xor o.active (decide (c.countTogglesAt is_less max p s evs % 2 = 1)) }) := by
  intro evs
  induction evs with
  | nil =>
    intro s
    exact (map_xor_parity_zero _).symm
  | cons e rest ih =>
    intro s
    match e with
    | ReadEv.ioErr =>
      exact (map_xor_parity_zero _).symm
    | ReadEv.ev Event.other =>
      exact ih s
    | ReadEv.ev (Event.key k) =>
      rcases hstep : c.step is_less max s k with ⟨s', ops⟩ | ⟨r, ops⟩
      · have hrun : (c.runLoop is_less max s (ReadEv.ev (Event.key k) :: rest)).2.1
            = (c.runLoop is_less max s' rest).2.1 := by
          simp [MultiSelect.runLoop, hstep]
        have hcnt : c.countTogglesAt is_less max p s (ReadEv.ev (Event.key k) :: rest)
            = (if k.code = KeyCode.char ' ' ∧ s.idx = p then 1 else 0)
              + c.countTogglesAt is_less max p s' rest := by
          simp [MultiSelect.countTogglesAt, hstep]
        rw [hrun, hcnt, ih s']
        by_cases hsp : k.code = KeyCode.char ' '
        · obtain ⟨opt, hget, rfl⟩ :=
            (c.step_cont_opts is_less max s _ k ops hstep).1 hsp
          have hlt : s.idx < s.opts.length := by
            rcases List.get?_eq_some.1 hget with ⟨hl, _⟩
            exact hl
          by_cases hip : s.idx = p
          · rw [hip] at hget hlt ⊢
            rw [if_pos (⟨hsp, rfl⟩ : k.code = KeyCode.char ' ' ∧ p = p), hget,
              List.get?_set_eq_of_lt _ hlt]
            simp only [Option.map_some, decide_succ_mod_two]
            cases ha : opt.active <;>
              cases hb : decide (c.countTogglesAt is_less max p
                ⟨s.opts.set p opt.toggle, p, s.less_idx⟩ rest % 2 = 1) <;>
              simp [MSel.Opt.toggle, ha, hb]
          · rw [List.get?_set_ne _ _ hip]
            simp [hip]
        · have hopts : MSState.opts _ = s.opts :=
            (c.step_cont_opts is_less max s s' k ops hstep).2 hsp
          rw [hopts]
          simp [hsp]
      · have hrun : (c.runLoop is_less max s (ReadEv.ev (Event.key k) :: rest)).2.1 = s := by
          simp [MultiSelect.runLoop, hstep]
        have hcnt : c.countTogglesAt is_less max p s (ReadEv.ev (Event.key k) :: rest) = 0 := by
          simp [MultiSelect.countTogglesAt, hstep]
        rw [hrun, hcnt]
        exact (map_xor_parity_zero _).symm

/-- A `stop` step returning `Ok` is the Enter branch, which submits the
active values of the state it stopped in. -/
theorem MultiSelect.step_stop_ok {M T O : Type} (c : MultiSelect M T O)
    (is_less : Option Nat) (max : Nat) (s : MSState T O) (k : KeyEvent)
    (v : List T) (ops : List TermOp)
    (h : c.step is_less max s k = Step.stop (RunResult.ok v) ops) :
    v = submitValues s.opts := by
  unfold MultiSelect.step at h
  split at h
  all_goals try (split at h)
  all_goals try cases h
  all_goals first
    | rfl
    | (rcases hb : c.cancel <;> simp [hb] at h)

/-- When the MultiSelect read loop returns `Ok vs`, `vs` is exactly
`submitValues` of the loop state at the moment of submission. -/
theorem MultiSelect.runLoop_ok_submit {M T O : Type} (c : MultiSelect M T O)
    (is_less : Option Nat) (max : Nat) :
    ∀ (evs : List ReadEv) (s : MSState T O) (vs : List T),
      (c.runLoop is_less max s evs).1 = RunResult.ok vs →
      vs = submitValues (c.runLoop is_less max s evs).2.1.opts := by
  intro evs
  induction evs with
  | nil => intro s vs h; simp [MultiSelect.runLoop] at h
  | cons e rest ih =>
    intro s vs h
    match e with
    | ReadEv.ioErr => simp [MultiSelect.runLoop] at h
    | ReadEv.ev Event.other => exact ih s vs h
    | ReadEv.ev (Event.key k) =>
      rcases hstep : c.step is_less max s k with ⟨s', ops⟩ | ⟨r, ops⟩
      · have hrun1 : (c.runLoop is_less max s (ReadEv.ev (Event.key k) :: rest)).1
            = (c.runLoop is_less max s' rest).1 := by
          simp [MultiSelect.runLoop, hstep]
        have hrun2 : (c.runLoop is_less max s (ReadEv.ev (Event.key k) :: rest)).2.1
            = (c.runLoop is_less max s' rest).2.1 := by
          simp [MultiSelect.runLoop, hstep]
        rw [hrun1] at h
        rw [hrun2]
        exact ih s' vs h
      · have hrun1 : (c.runLoop is_less max s (ReadEv.ev (Event.key k) :: rest)).1 = r := by
          simp [MultiSelect.runLoop, hstep]
        have hrun2 : (c.runLoop is_less max s (ReadEv.ev (Event.key k) :: rest)).2.1 = s := by
          simp [MultiSelect.runLoop, hstep]
        rw [hrun1] at h
        rw [hrun2]
        subst h
        exact c.step_stop_ok is_less max s k vs ops hstep

/-- An inactive option whose value no other option shares contributes
nothing to `submitValues`. -/
theorem not_mem_submitValues {T O : Type} (opts : List (MSel.Opt T O)) (p : Nat)
    (opt : MSel.Opt T O) (hp : opts.get? p = some opt) (hact : opt.active = false)
    (huniq : ∀ q o', opts.get? q = some o' → o'.value = opt.value → q = p) :
    opt.value ∉ submitValues opts := by
  intro hmem
  unfold submitValues at hmem
  obtain ⟨o, ho, hval⟩ := List.mem_map.1 hmem
  obtain ⟨hoin, hoact⟩ := List.mem_filter.1 ho
  obtain ⟨⟨q, hqlt⟩, hget⟩ := List.mem_iff_get.1 hoin
  have hq : opts.get? q = some o := by
    rw [List.get?_eq_get hqlt, hget]
  have hqp : q = p := huniq q o hq hval
  subst hqp
  rw [hp] at hq
  injection hq with hq
  subst hq
  rw [hact] at hoact
  cases hoact

/-- C7: `Opt::toggle` is an involution; a space key toggles only the
focused option's `active` flag, leaving `focus_index` and the window row
unchanged; and over any run, an option that starts inactive and is
toggled an even number of times ends inactive, so the submitted sequence
(the `active`-filtered values) excludes it — in particular its value is
absent whenever no other option shares it. -/
theorem claim_c7 {M T O : Type} (c : MultiSelect M T O) (is_less : Option Nat)
    (max : Nat) :
    (∀ o : MSel.Opt T O, o.toggle.toggle = o)
    ∧ (∀ (s : MSState T O) (m : Bool) (opt : MSel.Opt T O),
        s.opts.get? s.idx = some opt →
        c.step is_less max s ⟨KeyCode.char ' ', m⟩
          = Step.cont ⟨s.opts.set s.idx opt.toggle, s.idx, s.less_idx⟩ [TermOp.write])
    ∧ (∀ (evs : List ReadEv) (s : MSState T O) (p : Nat) (opt : MSel.Opt T O)
          (vs : List T),
        s.opts.get? p = some opt → opt.active = false →
        c.countTogglesAt is_less max p s evs % 2 = 0 →
        (c.runLoop is_less max s evs).1 = RunResult.ok vs →
        (c.runLoop is_less max s evs).2.1.opts.get? p = some opt
        ∧ vs = submitValues (c.runLoop is_less max s evs).2.1.opts
        ∧ ((∀ q o', (c.runLoop is_less max s evs).2.1.opts.get? q = some o' →
              o'.value = opt.value → q = p) →
            opt.value ∉ vs)) := by
  refine ⟨?_, ?_, ?_⟩
  · intro o
    cases o
    simp [MSel.Opt.toggle]
  · intro s m opt hget
    unfold MultiSelect.step
    rw [hget]
    rfl
  · intro evs s p opt vs hp hact hcnt hok
    have hpar := c.runLoop_get_parity is_less max p evs s
    rw [hp] at hpar
    have hfalse : decide (c.countTogglesAt is_less max p s evs % 2 = 1) = false := by
      simp
      omega
    simp only [hfalse, Bool.xor_false, Option.map_some] at hpar
    have hpar' : (c.runLoop is_less max s evs).2.1.opts.get? p = some opt := hpar
    have hsub := c.runLoop_ok_submit is_less max evs s vs hok
    refine ⟨hpar', hsub, fun huniq => ?_⟩
    have hnm := not_mem_submitValues _ p opt hpar' hact huniq
    rw [← hsub] at hnm
    exact hnm

theorem claim_c7_witness :
    MSel.Opt.toggle (MSel.Opt.toggle (⟨"a", "A", none, false⟩ : MSel.Opt String String))
        = ⟨"a", "A", none, false⟩
    ∧ (exampleMultiAB.runLoop none 2 ⟨exampleMultiAB.options, 0, 0⟩
        [keyOf (KeyCode.char ' '), keyOf KeyCode.down, keyOf (KeyCode.char ' '),
          keyOf (KeyCode.char ' '), keyOf KeyCode.enter]).2.1.opts.get? 1
        = some ⟨"b", "B", none, false⟩
    ∧ ("b" : String) ∉ (["a"] : List String) := by
  obtain ⟨h1, h2, h3⟩ := claim_c7 exampleMultiAB none 2
  have hc := h3
    [keyOf (KeyCode.char ' '), keyOf KeyCode.down, keyOf (KeyCode.char ' '),
      keyOf (KeyCode.char ' '), keyOf KeyCode.enter]
    ⟨exampleMultiAB.options, 0, 0⟩ 1 ⟨"b", "B", none, false⟩ ["a"]
    (by decide) rfl (by decide) (by decide)
  refine ⟨h1 ⟨"a", "A", none, false⟩, hc.1, hc.2.2 ?_⟩
  intro q o' hq hv
  have hfin : (exampleMultiAB.runLoop none 2 ⟨exampleMultiAB.options, 0, 0⟩
      [keyOf (KeyCode.char ' '), keyOf KeyCode.down, keyOf (KeyCode.char ' '),
        keyOf (KeyCode.char ' '), keyOf KeyCode.enter]).2.1.opts
      = [⟨"a", "A", none, true⟩, ⟨"b", "B", none, false⟩] := by decide
  rw [hfin] at hq
  match q with
  | 0 =>
    cases hq
    exact absurd hv (by decide)
  | 1 => rfl
  | (n + 2) => cases hq

end MayClack
